import Mathlib

/-!
Verification of the segmentation-overlay pipeline of `src/App.tsx`
(DeepLabV3Example).

The development shallowly embeds the body of `handleImage` together with
the tensor operations it invokes from the on-device ML runtime
(`torch.fromBlob`, `.div`, `.permute`, `torchvision.transforms.normalize`,
`.unsqueeze`, `.squeeze`, `.argmax`).  Tensors are flat row-major buffers
of rationals paired with a shape, exactly as the runtime stores them;
float arithmetic is modelled by exact rational arithmetic.  The stateful
part of `handleImage` (the `isProcessing` flag, alerts, the canvas
context) is embedded as explicit state passing with an `Except`-valued
result for thrown errors.
-/

namespace DeepLab

/-- Number of elements of a row-major tensor with the given shape. -/
def shapeNumel : List Nat → Nat
| [] => 1
| d :: s => d * shapeNumel s

@[simp] theorem shapeNumel_nil : shapeNumel [] = 1 := rfl

@[simp] theorem shapeNumel_cons (d : Nat) (s : List Nat) :
    shapeNumel (d :: s) = d * shapeNumel s := rfl

/-- Flat row-major offset of a multi-index in a tensor of the given shape. -/
def flattenIdx : List Nat → List Nat → Nat
| _ :: s, i :: is => i * shapeNumel s + flattenIdx s is
| _, _ => 0

@[simp] theorem flattenIdx_cons (d : Nat) (s : List Nat) (i : Nat) (is : List Nat) :
    flattenIdx (d :: s) (i :: is) = i * shapeNumel s + flattenIdx s is := rfl

@[simp] theorem flattenIdx_nil (is : List Nat) : flattenIdx [] is = 0 := by
  cases is <;> rfl

@[simp] theorem flattenIdx_nil_right (s : List Nat) : flattenIdx s [] = 0 := by
  cases s <;> rfl

/-- Multi-index of a flat row-major offset in a tensor of the given shape. -/
def unflattenIdx : List Nat → Nat → List Nat
| [], _ => []
| _ :: s, k => k / shapeNumel s :: unflattenIdx s (k % shapeNumel s)

@[simp] theorem unflattenIdx_nil (k : Nat) : unflattenIdx [] k = [] := rfl

@[simp] theorem unflattenIdx_cons (d : Nat) (s : List Nat) (k : Nat) :
    unflattenIdx (d :: s) k = k / shapeNumel s :: unflattenIdx s (k % shapeNumel s) := rfl

/-- Row-major stride of dimension `d` in a tensor of the given shape. -/
def strideAt (s : List Nat) (d : Nat) : Nat := shapeNumel (s.drop (d + 1))

/-- A tensor of the ML runtime: a shape and a flat row-major buffer of
(rational-modelled float) scalars. -/
structure Tensor where
  shape : List Nat
  data : List ℚ
deriving DecidableEq, Repr

/-- A tensor whose scalars are class indices, as produced by `argmax`. -/
structure TensorN where
  shape : List Nat
  data : List Nat
deriving DecidableEq, Repr

/-- Scalar of a tensor at a multi-index (0 outside the buffer, matching the
defaulting reads used by the render loop). -/
def Tensor.get (t : Tensor) (idx : List Nat) : ℚ :=
  t.data.getD (flattenIdx t.shape idx) 0

/-- Embeds `torch.fromBlob(blob, shape).to({dtype: torch.float32})`: the raw
byte buffer of the image reinterpreted as a tensor and cast to float. -/
def fromBlob (blob : List Nat) (shape : List Nat) : Tensor :=
  { shape := shape, data := blob.map (fun b => (Nat.cast b : ℚ)) }

/-- Embeds `tensor.div(s)`: elementwise division. -/
def Tensor.div (t : Tensor) (s : ℚ) : Tensor :=
  { shape := t.shape, data := t.data.map (fun v => v / s) }

/-- Row-major offset into the original buffer corresponding to a
multi-index of the permuted tensor: axis `a` of the new tensor is axis
`perm[a]` of the original. -/
def oldIndex (shape : List Nat) : List Nat → List Nat → Nat
| p :: ps, i :: is => i * strideAt shape p + oldIndex shape ps is
| _, _ => 0

@[simp] theorem oldIndex_cons (shape : List Nat) (p : Nat) (ps : List Nat)
    (i : Nat) (is : List Nat) :
    oldIndex shape (p :: ps) (i :: is) = i * strideAt shape p + oldIndex shape ps is := rfl

/-- Embeds `tensor.permute(perm)`: reorder the axes, materialised into a
fresh row-major buffer. -/
def Tensor.permute (t : Tensor) (perm : List Nat) : Tensor :=
  let newShape := perm.map (fun p => t.shape.getD p 0)
  { shape := newShape,
    data := (List.range (shapeNumel newShape)).map (fun k =>
      t.data.getD (oldIndex t.shape perm (unflattenIdx newShape k)) 0) }

/-- Modelled from the spec: `torchvision.transforms.normalize(mean, std)`
applied to a channel-first `[C, H, W]` tensor maps the scalar at channel
`c` to `(value - mean[c]) / std[c]`.  The runtime's implementation is not
part of this repository; the per-channel formula is the one the spec
(section 4.1, step 4) ascribes to it.  On a flat row-major `[C, H, W]`
buffer the channel of offset `k` is `k / (H * W)`. -/
def normalize (mean std : List ℚ) (t : Tensor) : Tensor :=
  match t.shape with
  | [_, h, w] =>
    { shape := t.shape,
      data := (List.range (shapeNumel t.shape)).map (fun k =>
        (t.data.getD k 0 - mean.getD (k / (h * w)) 0) / std.getD (k / (h * w)) 0) }
  | _ => t

/-- Embeds `tensor.unsqueeze(0)`: prepend a batch dimension. -/
def Tensor.unsqueeze0 (t : Tensor) : Tensor :=
  { shape := 1 :: t.shape, data := t.data }

/-- Embeds `tensor.squeeze(0)`: drop dimension 0 when it has size 1,
leaving the tensor unchanged otherwise. -/
def Tensor.squeeze0 (t : Tensor) : Tensor :=
  if t.shape.head? = some 1 then { shape := t.shape.tail, data := t.data } else t

/-- Modelled from the spec: index of the first maximum of a list of
scores, scanning in ascending index order (the deterministic tie-break
the spec, section 4.2, ascribes to the runtime's `argmax`).  A later
entry replaces the current best only when strictly greater. -/
def argmaxList : List ℚ → Nat
| [] => 0
| [_] => 0
| x :: y :: ys =>
  let r := argmaxList (y :: ys)
  if x < (y :: ys).getD r 0 then r + 1 else 0

/-- Modelled from the spec: `tensor.argmax({dim: 0})` reduces dimension 0,
every output entry holding the (first-maximum) class index of the pixel. -/
def Tensor.argmaxDim0 (t : Tensor) : TensorN :=
  match t.shape with
  | d0 :: rest =>
    let r := shapeNumel rest
    { shape := rest,
      data := (List.range r).map (fun k =>
        argmaxList ((List.range d0).map (fun c => t.data.getD (c * r + k) 0))) }
  | [] => { shape := [], data := [] }

/-- The Mask Decoder of `handleImage`:
`output.out.squeeze(0).argmax({dim: 0})` (line 119 of `App.tsx`). -/
def decode (out : Tensor) : TensorN :=
  out.squeeze0.argmaxDim0

/-- The per-channel means of line 111 of `App.tsx`. -/
def means : List ℚ := [0.485, 0.456, 0.406]

/-- The per-channel standard deviations of line 112 of `App.tsx`. -/
def stds : List ℚ := [0.229, 0.224, 0.225]

/-- An image as exposed by `ImageUtil.fromURL` plus `media.toBlob`:
dimensions and the interleaved `[H, W, 3]` byte buffer. -/
structure ImageData where
  height : Nat
  width : Nat
  blob : List Nat
deriving DecidableEq, Repr

/-- The preprocessing pipeline of `handleImage` (lines 104-115 of
`App.tsx`): blob to float tensor, divide by 255, permute `[H, W, 3]` to
`[3, H, W]`, normalize per channel, prepend the batch dimension. -/
def preprocess (image : ImageData) : Tensor :=
  let tensor := ((fromBlob image.blob [image.height, image.width, 3]).div 255).permute [2, 0, 1]
  (normalize means stds tensor).unsqueeze0

/-- The fixed class palette of `App.tsx` (lines 42-64): 21 colors indexed
by PASCAL VOC class. -/
def PALETTE : List String :=
  ["aliceblue", "cornflowerblue", "cornsilk", "crimson", "cyan", "darkblue",
   "darkcyan", "darkgoldenrod", "darkgray", "antiquewhite", "aqua",
   "aquamarine", "beige", "blue", "blueviolet", "brown", "burlywood",
   "cadetblue", "chartreuse", "chocolate", "coral"]

/-- A call on the canvas drawing context.  `setFillStyle none` records an
assignment of an out-of-range palette read (the `undefined` a JavaScript
array yields past its end). -/
inductive CanvasOp where
| clear : CanvasOp
| invalidate : CanvasOp
| save : CanvasOp
| scale (sx sy : ℚ) : CanvasOp
| drawImage (x y w h : Nat) : CanvasOp
| setFillStyle (color : Option String) : CanvasOp
| fillRect (x y w h : Nat) : CanvasOp
| restore : CanvasOp
deriving DecidableEq, Repr

/-- Canvas calls issued for one pixel of the mask by the render loop
(lines 135-143 of `App.tsx`): when the class index is positive, set the
fill style from the palette and fill the unit rectangle at `(j, i)`. -/
def pixelOps (colors : List Nat) (width i j : Nat) : List CanvasOp :=
  let idx := colors.getD (i * width + j) 0
  if idx > 0 then
    [CanvasOp.setFillStyle (PALETTE.get? idx), CanvasOp.fillRect j i 1 1]
  else []

/-- Canvas calls of the full nested render loop over the mask. -/
def paintOps (colors : List Nat) (height width : Nat) : List CanvasOp :=
  (List.range height).flatMap (fun i =>
    (List.range width).flatMap (fun j => pixelOps colors width i j))

/-- The scale factor of line 124 of `App.tsx`:
`Math.min(250 / height, windowWidth / width)`. -/
def newScaleFactor (windowWidth : ℚ) (height width : Nat) : ℚ :=
  min (250 / (height : ℚ)) (windowWidth / (width : ℚ))

/-- Modelled from the spec (section 4.3): the uniform scale factor
`min(targetBox.height / image.height, targetBox.width / image.width)`,
stated for comparison with the code's computation. -/
def specScaleFactor (targetW targetH imageW imageH : ℚ) : ℚ :=
  min (targetH / imageH) (targetW / imageW)

/-- Errors a run can raise: a failed image fetch, a failed inference call,
or a throwing canvas call. -/
inductive Err where
| fetchFailed : Err
| forwardFailed : Err
| canvasFailed : Err
deriving DecidableEq, Repr

/-- The loaded model: `model.forward`, returning the `out` tensor of the
`DeepLabV3Result` or raising a runtime error. -/
def Model : Type := Tensor → Except Err Tensor

/-- External collaborators of one `handleImage` run: the (possibly
missing) model, whether `context2DRef.current` is non-null, the outcome
the image fetch would have, the window width, and - to model a throwing
drawing call - the position in the sequence of canvas calls at which the
context throws, if any. -/
structure Env where
  model : Option Model
  hasCtx : Bool
  fetchResult : Except Err ImageData
  windowWidth : ℚ
  canvasFailAt : Option Nat

/-- Observable state mutated by a run: the `isProcessing` flag, the
alerts shown, how many image fetches were issued, the log of canvas calls
executed, the drawn-but-uncommitted calls, and the calls committed to the
screen by `invalidate`. -/
structure World where
  isProcessing : Bool
  alerts : List (String × String)
  fetchCount : Nat
  log : List CanvasOp
  pending : List CanvasOp
  committed : List CanvasOp
deriving DecidableEq, Repr

/-- The run monad: explicit state passing with an `Except`-valued result,
so a thrown error preserves the state reached so far. -/
def M (α : Type) : Type := World → Except Err α × World

/-- Return a value, leaving the state unchanged. -/
def M.pure {α : Type} (a : α) : M α := fun w => (Except.ok a, w)

/-- Sequence two steps, short-circuiting on a thrown error. -/
def M.bind {α β : Type} (x : M α) (f : α → M β) : M β := fun w =>
  match x w with
  | (Except.ok a, w1) => f a w1
  | (Except.error e, w1) => (Except.error e, w1)

/-- Lift the outcome of an external call, leaving the state unchanged. -/
def M.liftE {α : Type} (e : Except Err α) : M α := fun w => (e, w)

/-- Embeds `setIsProcessing(b)`. -/
def M.setProcessing (b : Bool) : M Unit := fun w =>
  (Except.ok (), { w with isProcessing := b })

/-- Embeds `Alert.alert(title, message)`. -/
def M.alert (a : String × String) : M Unit := fun w =>
  (Except.ok (), { w with alerts := w.alerts ++ [a] })

/-- Embeds `await ImageUtil.fromURL(imageUrl)`: the fetch is issued, then
its outcome (the image, or a raised error) is returned. -/
def M.fetchImage (env : Env) : M ImageData := fun w =>
  (env.fetchResult, { w with fetchCount := w.fetchCount + 1 })

/-- Effect of one successfully executed canvas call on the state: the
call is logged; `invalidate` commits the pending draws, every other call
joins them. -/
def applyOp (w : World) (op : CanvasOp) : World :=
  match op with
  | CanvasOp.invalidate =>
    { w with log := w.log ++ [op], committed := w.committed ++ w.pending, pending := [] }
  | _ => { w with log := w.log ++ [op], pending := w.pending ++ [op] }

/-- Execute one canvas call: it throws when the environment makes the
context fail at this position of the call sequence. -/
def emitOp (env : Env) (op : CanvasOp) : M Unit := fun w =>
  if env.canvasFailAt = some w.log.length then (Except.error Err.canvasFailed, w)
  else (Except.ok (), applyOp w op)

/-- Execute a sequence of canvas calls in order, stopping at the first
throwing call. -/
def emitOps (env : Env) : List CanvasOp → M Unit
| [] => M.pure ()
| op :: rest => M.bind (emitOp env op) (fun _ => emitOps env rest)

/-- The body of `handleImage` (lines 83-151 of `App.tsx`), step for step:
reject with an alert when the model is null; set `isProcessing`; clear and
invalidate the canvas when the context is non-null; fetch the image;
preprocess; run `model.forward`; decode the mask; when the context is
non-null, draw the scaled image and the mask overlay and invalidate; reset
`isProcessing`.  There is no exception handler anywhere in the source, so
every raised error simply propagates out of the run. -/
def handleImage (env : Env) : M Unit :=
  match env.model with
  | none => M.alert ("Model not loaded", "The model has not been loaded yet")
  | some fwd =>
    M.bind (M.setProcessing true) (fun _ =>
    M.bind (if env.hasCtx then emitOps env [CanvasOp.clear, CanvasOp.invalidate]
            else M.pure ()) (fun _ =>
    M.bind (M.fetchImage env) (fun image =>
    M.bind (M.liftE (fwd (preprocess image))) (fun output =>
    let mask := decode output
    M.bind (if env.hasCtx then
              let s := newScaleFactor env.windowWidth image.height image.width
              emitOps env
                ([CanvasOp.save, CanvasOp.scale s s,
                  CanvasOp.drawImage 0 0 image.width image.height]
                 ++ paintOps mask.data image.height image.width
                 ++ [CanvasOp.restore, CanvasOp.invalidate])
            else M.pure ()) (fun _ =>
    M.setProcessing false)))))

/-! Helper lemmas: defaulting list reads, row-major index arithmetic, and
the first-maximum scan. -/

theorem getD_map_of {α β : Type _} (f : α → β) (l : List α) (k : Nat) {da : α} {db : β}
    (h : f da = db) : (l.map f).getD k db = f (l.getD k da) := by
  rcases Nat.lt_or_ge k l.length with hk | hk
  · rw [List.getD_eq_getElem _ _ (by simpa using hk), List.getD_eq_getElem _ _ hk]
    simp
  · rw [List.getD_eq_default _ _ (by simpa using hk), List.getD_eq_default _ _ hk, h]

theorem getD_range_map {α : Type _} (f : Nat → α) {n k : Nat} (d : α) (h : k < n) :
    ((List.range n).map f).getD k d = f k := by
  rw [List.getD_eq_getElem _ _ (by simpa using h)]
  simp

theorem blob_getD (blob : List Nat) (k : Nat) :
    ((blob.map (fun b => (Nat.cast b : ℚ))).map (fun v => v / 255)).getD k 0
      = ((blob.getD k 0 : Nat) : ℚ) / 255 := by
  rcases Nat.lt_or_ge k blob.length with hk | hk
  · rw [List.getD_eq_getElem _ _ (by simpa using hk), List.getD_eq_getElem _ _ hk]
    simp
  · rw [List.getD_eq_default _ _ (by simpa using hk), List.getD_eq_default _ _ hk]
    simp

theorem addMulLt {x a r m : Nat} (hx : x < a) (hr : r < m) : x * m + r < a * m :=
  calc x * m + r < x * m + m := Nat.add_lt_add_left hr _
  _ = (x + 1) * m := (Nat.succ_mul x m).symm
  _ ≤ a * m := Nat.mul_le_mul_right m hx

theorem divAddMul {x r m : Nat} (hr : r < m) : (x * m + r) / m = x := by
  have hm : 0 < m := Nat.lt_of_le_of_lt (Nat.zero_le r) hr
  rw [Nat.add_comm, Nat.mul_comm, Nat.add_mul_div_left _ _ hm, Nat.div_eq_of_lt hr,
    Nat.zero_add]

theorem modAddMul {x r m : Nat} (hr : r < m) : (x * m + r) % m = r := by
  rw [Nat.mul_comm, Nat.mul_add_mod, Nat.mod_eq_of_lt hr]

theorem flatten3 (a b c x y z : Nat) :
    flattenIdx [a, b, c] [x, y, z] = x * (b * c) + (y * c + z) := by
  simp [shapeNumel]

theorem flatten4 (a b c d x y z u : Nat) :
    flattenIdx [a, b, c, d] [x, y, z, u] =
      x * (b * (c * d)) + (y * (c * d) + (z * d + u)) := by
  simp [shapeNumel]

theorem unflatten3 {b c y z : Nat} (a x : Nat) (hy : y < b) (hz : z < c) :
    unflattenIdx [a, b, c] (x * (b * c) + (y * c + z)) = [x, y, z] := by
  have hbc : y * c + z < b * c := addMulLt hy hz
  simp only [unflattenIdx_cons, unflattenIdx_nil, shapeNumel_cons, shapeNumel_nil,
    Nat.mul_one]
  rw [divAddMul hbc, modAddMul hbc, divAddMul hz, modAddMul hz, Nat.div_one]

theorem argmaxList_cons2 (x y : ℚ) (ys : List ℚ) :
    argmaxList (x :: y :: ys) =
      if x < (y :: ys).getD (argmaxList (y :: ys)) 0 then argmaxList (y :: ys) + 1
      else 0 := rfl

theorem argmaxList_lt : ∀ (l : List ℚ), l ≠ [] → argmaxList l < l.length
| [], h => absurd rfl h
| [_], _ => by simp [argmaxList]
| x :: y :: ys, _ => by
  have ih := argmaxList_lt (y :: ys) (by simp)
  rw [argmaxList_cons2]
  by_cases hx : x < (y :: ys).getD (argmaxList (y :: ys)) 0
  · rw [if_pos hx]
    simpa using Nat.succ_lt_succ ih
  · rw [if_neg hx]
    simp

theorem argmaxList_le : ∀ (l : List ℚ) (k : Nat), k < l.length →
    l.getD k 0 ≤ l.getD (argmaxList l) 0
| [], k, h => by simp at h
| [x], k, h => by
  have : k = 0 := by simpa using h
  subst this
  simp [argmaxList]
| x :: y :: ys, k, h => by
  rw [argmaxList_cons2]
  by_cases hx : x < (y :: ys).getD (argmaxList (y :: ys)) 0
  · rw [if_pos hx]
    cases k with
    | zero => simpa using le_of_lt hx
    | succ k =>
      have := argmaxList_le (y :: ys) k (by simpa using h)
      simpa using this
  · rw [if_neg hx]
    push_neg at hx
    cases k with
    | zero => simp
    | succ k =>
      have := argmaxList_le (y :: ys) k (by simpa using h)
      simpa using le_trans this hx

theorem argmaxList_first : ∀ (l : List ℚ) (k : Nat), k < argmaxList l →
    l.getD k 0 < l.getD (argmaxList l) 0
| [], k, h => by simp [argmaxList] at h
| [_], k, h => by simp [argmaxList] at h
| x :: y :: ys, k, h => by
  rw [argmaxList_cons2] at h ⊢
  by_cases hx : x < (y :: ys).getD (argmaxList (y :: ys)) 0
  · rw [if_pos hx] at h ⊢
    cases k with
    | zero => simpa using hx
    | succ k =>
      have := argmaxList_first (y :: ys) k (by simpa using h)
      simpa using this
  · rw [if_neg hx] at h
    exact absurd h (Nat.not_lt_zero k)

/-! Shape and element lemmas for the tensor pipeline. -/

theorem fromBlob_shape (blob shape : List Nat) : (fromBlob blob shape).shape = shape := rfl

theorem div_shape (t : Tensor) (s : ℚ) : (t.div s).shape = t.shape := rfl

theorem normalize_shape (m s : List ℚ) (t : Tensor) : (normalize m s t).shape = t.shape := by
  unfold normalize
  split <;> rfl

theorem unsqueeze0_shape (t : Tensor) : t.unsqueeze0.shape = 1 :: t.shape := rfl

theorem unsqueeze0_get (t : Tensor) (idx : List Nat) :
    t.unsqueeze0.get (0 :: idx) = t.get idx := by
  simp [Tensor.unsqueeze0, Tensor.get]

theorem permute_blob_get (blob : List Nat) (h w c i j : Nat)
    (hc : c < 3) (hi : i < h) (hj : j < w) :
    (((fromBlob blob [h, w, 3]).div 255).permute [2, 0, 1]).get [c, i, j]
      = ((blob.getD (i * (w * 3) + (j * 3 + c)) 0 : Nat) : ℚ) / 255 := by
  have hK : flattenIdx [3, h, w] [c, i, j] = c * (h * w) + (i * w + j) := flatten3 3 h w c i j
  have hKlt : c * (h * w) + (i * w + j) < shapeNumel [3, h, w] := by
    have := addMulLt hc (addMulLt hi hj)
    simpa [shapeNumel, Nat.mul_comm] using this
  show ((List.range (shapeNumel [3, h, w])).map _).getD (flattenIdx [3, h, w] [c, i, j]) 0 = _
  rw [hK, getD_range_map _ _ (hKlt)]
  have hmap : List.map (fun p => ((fromBlob blob [h, w, 3]).div 255).shape.getD p 0)
      [2, 0, 1] = [3, h, w] := rfl
  have hsh : ((fromBlob blob [h, w, 3]).div 255).shape = [h, w, 3] := rfl
  rw [hmap, hsh, unflatten3 3 c hi hj]
  have hidx : oldIndex [h, w, 3] [2, 0, 1] [c, i, j] = i * (w * 3) + (j * 3 + c) := by
    simp [oldIndex, strideAt, shapeNumel]
    ring
  rw [hidx]
  exact blob_getD blob (i * (w * 3) + (j * 3 + c))

theorem normalize_get3 (m s : List ℚ) (t : Tensor) (h w c i j : Nat)
    (ht : t.shape = [3, h, w]) (hc : c < 3) (hi : i < h) (hj : j < w) :
    (normalize m s t).get [c, i, j]
      = (t.get [c, i, j] - m.getD c 0) / s.getD c 0 := by
  obtain ⟨sh, d⟩ := t
  have hsh : sh = [3, h, w] := ht
  subst hsh
  have hK : flattenIdx [3, h, w] [c, i, j] = c * (h * w) + (i * w + j) := flatten3 3 h w c i j
  have hKlt : c * (h * w) + (i * w + j) < shapeNumel [3, h, w] := by
    have := addMulLt hc (addMulLt hi hj)
    simpa [shapeNumel, Nat.mul_comm] using this
  have hdiv : (c * (h * w) + (i * w + j)) / (h * w) = c := divAddMul (addMulLt hi hj)
  show ((List.range (shapeNumel [3, h, w])).map _).getD (flattenIdx [3, h, w] [c, i, j]) 0 = _
  rw [hK, getD_range_map _ _ hKlt, hdiv]
  show (d.getD (c * (h * w) + (i * w + j)) 0 - _) / _ = (d.getD (flattenIdx [3, h, w] [c, i, j]) 0 - _) / _
  rw [hK]

/-- C2: for every image with positive dimensions and 3-channel pixel data,
the preprocessing step of `handleImage` produces a tensor of shape
`[1, 3, H, W]` whose scalar at `[0, c, i, j]` is the byte at row-major
`[H, W, 3]` position `(i, j, c)` cast to float, divided by 255, and
normalized as `(value - mean[c]) / std[c]` with the means and standard
deviations of lines 111-112 of `App.tsx`. -/
theorem preprocess_spec (image : ImageData) (c i j : Nat)
    (hc : c < 3) (hi : i < image.height) (hj : j < image.width) :
    (preprocess image).shape = [1, 3, image.height, image.width] ∧
    (preprocess image).get [0, c, i, j] =
      (((image.blob.getD (i * (image.width * 3) + (j * 3 + c)) 0 : Nat) : ℚ) / 255
        - means.getD c 0) / stds.getD c 0 := by
  constructor
  · show (1 :: (normalize means stds _).shape) = _
    rw [normalize_shape]
    rfl
  · rw [show (preprocess image).get [0, c, i, j]
        = (normalize means stds
            (((fromBlob image.blob [image.height, image.width, 3]).div 255).permute
              [2, 0, 1])).get [c, i, j] from unsqueeze0_get _ _]
    rw [normalize_get3 means stds _ image.height image.width c i j rfl hc hi hj]
    rw [permute_blob_get image.blob image.height image.width c i j hc hi hj]

/-- C2 witness: a concrete 1-by-2 image evaluated through `preprocess`. -/
theorem preprocess_spec_witness :
    ((1 : Nat) < 3 ∧ (0 : Nat) < 1 ∧ (1 : Nat) < 2) ∧
    ((preprocess { height := 1, width := 2, blob := [10, 20, 30, 40, 50, 60] }).shape
        = [1, 3, 1, 2] ∧
      (preprocess { height := 1, width := 2, blob := [10, 20, 30, 40, 50, 60] }).get
          [0, 1, 0, 1] =
        ((([10, 20, 30, 40, 50, 60].getD (0 * (2 * 3) + (1 * 3 + 1)) 0 : Nat) : ℚ) / 255
          - means.getD 1 0) / stds.getD 1 0) :=
  ⟨⟨by decide, by decide, by decide⟩,
    preprocess_spec { height := 1, width := 2, blob := [10, 20, 30, 40, 50, 60] } 1 0 1
      (by decide) (by decide) (by decide)⟩

/-- C1: on a model output of shape `[1, numClasses, H, W]`, the Mask
Decoder of `handleImage` (`squeeze(0).argmax({dim: 0})`) produces a mask
of shape `[H, W]` whose entry at pixel `(i, j)` is a class index `m`
maximizing `output[0][c][i][j]` over `c`, with ties broken by the lowest
class index (every class below `m` scores strictly less); `decode` is a
pure function, so repeated calls on the same tensor give an identical
mask. -/
theorem decode_spec (out : Tensor) (C H W i j : Nat)
    (hshape : out.shape = [1, C, H, W]) (hC : 0 < C) (hi : i < H) (hj : j < W) :
    (decode out).shape = [H, W] ∧
    (decode out).data.getD (i * W + j) 0 < C ∧
    (∀ c, c < C →
      out.get [0, c, i, j] ≤ out.get [0, (decode out).data.getD (i * W + j) 0, i, j]) ∧
    (∀ c, c < (decode out).data.getD (i * W + j) 0 →
      out.get [0, c, i, j] < out.get [0, (decode out).data.getD (i * W + j) 0, i, j]) ∧
    decode out = decode out := by
  obtain ⟨sh, d⟩ := out
  have hsh : sh = [1, C, H, W] := hshape
  subst hsh
  have hsq : (Tensor.mk [1, C, H, W] d).squeeze0 = Tensor.mk [C, H, W] d := by
    simp [Tensor.squeeze0]
  have hdec : decode (Tensor.mk [1, C, H, W] d)
      = (Tensor.mk [C, H, W] d).argmaxDim0 := by
    rw [decode, hsq]
  rw [hdec]
  have hk : i * W + j < shapeNumel [H, W] := by
    have := addMulLt hi hj
    simpa [shapeNumel] using this
  have hdata : (Tensor.mk [C, H, W] d).argmaxDim0.data.getD (i * W + j) 0
      = argmaxList ((List.range C).map
          (fun c => d.getD (c * shapeNumel [H, W] + (i * W + j)) 0)) := by
    show ((List.range (shapeNumel [H, W])).map _).getD (i * W + j) 0 = _
    rw [getD_range_map _ _ hk]
  set l := (List.range C).map
      (fun c => d.getD (c * shapeNumel [H, W] + (i * W + j)) 0) with hl
  have hlen : l.length = C := by simp [hl]
  have hne : l ≠ [] := by
    intro hnil
    rw [hnil] at hlen
    simp at hlen
    omega
  have hmlt : argmaxList l < C := by
    have := argmaxList_lt l hne
    rwa [hlen] at this
  have hget : ∀ c, c < C →
      (Tensor.mk [1, C, H, W] d).get [0, c, i, j] = l.getD c 0 := by
    intro c hc
    show d.getD (flattenIdx [1, C, H, W] [0, c, i, j]) 0 = l.getD c 0
    rw [hl, getD_range_map _ _ hc, flatten4]
    have : shapeNumel [H, W] = H * W := by simp [shapeNumel]
    rw [this]
    simp
  refine ⟨rfl, ?_, ?_, ?_, rfl⟩
  · rw [hdata]
    exact hmlt
  · intro c hc
    rw [hdata, hget c hc, hget _ hmlt]
    exact argmaxList_le l c (by rwa [hlen])
  · intro c hc
    rw [hdata] at hc
    have hcC : c < C := Nat.lt_trans hc hmlt
    rw [hdata, hget c hcC, hget _ hmlt]
    exact argmaxList_first l c hc

/-- C1 witness: a concrete output tensor with a score tie, decoded. -/
theorem decode_spec_witness :
    (Tensor.mk [1, 3, 1, 1] [2, 2, 1]).shape = [1, 3, 1, 1] ∧
    ((0 : Nat) < 3 ∧ (0 : Nat) < 1) ∧
    ((decode (Tensor.mk [1, 3, 1, 1] [2, 2, 1])).shape = [1, 1] ∧
      (decode (Tensor.mk [1, 3, 1, 1] [2, 2, 1])).data.getD (0 * 1 + 0) 0 < 3 ∧
      (∀ c, c < 3 →
        (Tensor.mk [1, 3, 1, 1] [2, 2, 1]).get [0, c, 0, 0] ≤
          (Tensor.mk [1, 3, 1, 1] [2, 2, 1]).get
            [0, (decode (Tensor.mk [1, 3, 1, 1] [2, 2, 1])).data.getD (0 * 1 + 0) 0, 0, 0]) ∧
      (∀ c, c < (decode (Tensor.mk [1, 3, 1, 1] [2, 2, 1])).data.getD (0 * 1 + 0) 0 →
        (Tensor.mk [1, 3, 1, 1] [2, 2, 1]).get [0, c, 0, 0] <
          (Tensor.mk [1, 3, 1, 1] [2, 2, 1]).get
            [0, (decode (Tensor.mk [1, 3, 1, 1] [2, 2, 1])).data.getD (0 * 1 + 0) 0, 0, 0]) ∧
      decode (Tensor.mk [1, 3, 1, 1] [2, 2, 1]) = decode (Tensor.mk [1, 3, 1, 1] [2, 2, 1])) :=
  ⟨rfl, ⟨by decide, by decide⟩,
    decode_spec (Tensor.mk [1, 3, 1, 1] [2, 2, 1]) 3 1 1 0 0 rfl (by decide) (by decide)
      (by decide)⟩

/-! Canvas-call predicates and facts about the executed call sequences. -/

/-- Whether a canvas call is a `save`. -/
def isSave : CanvasOp → Bool
| CanvasOp.save => true
| _ => false

/-- Whether a canvas call is a `restore`. -/
def isRestore : CanvasOp → Bool
| CanvasOp.restore => true
| _ => false

/-- Whether a canvas call is a `fillRect`. -/
def isFillRect : CanvasOp → Bool
| CanvasOp.fillRect _ _ _ _ => true
| _ => false

/-- Whether a canvas call is the unit `fillRect` at `(x, y)`. -/
def isFillRectAt (x y : Nat) : CanvasOp → Bool
| CanvasOp.fillRect a b c d => a == x && b == y && c == 1 && d == 1
| _ => false

theorem applyOp_log (w : World) (op : CanvasOp) : (applyOp w op).log = w.log ++ [op] := by
  cases op <;> rfl

theorem applyOp_fields (w : World) (op : CanvasOp) :
    (applyOp w op).isProcessing = w.isProcessing ∧ (applyOp w op).alerts = w.alerts ∧
    (applyOp w op).fetchCount = w.fetchCount := by
  cases op <;> exact ⟨rfl, rfl, rfl⟩

theorem applyOp_committed {op : CanvasOp} (w : World) (h : op ≠ CanvasOp.invalidate) :
    (applyOp w op).committed = w.committed := by
  cases op <;> first | rfl | exact absurd rfl h

theorem foldl_applyOp_fields : ∀ (L : List CanvasOp) (w : World),
    (L.foldl applyOp w).isProcessing = w.isProcessing ∧
    (L.foldl applyOp w).alerts = w.alerts ∧
    (L.foldl applyOp w).fetchCount = w.fetchCount
| [], _ => ⟨rfl, rfl, rfl⟩
| op :: rest, w => by
  have ih := foldl_applyOp_fields rest (applyOp w op)
  have ha := applyOp_fields w op
  rw [List.foldl_cons]
  exact ⟨ih.1.trans ha.1, ih.2.1.trans ha.2.1, ih.2.2.trans ha.2.2⟩

theorem foldl_applyOp_log : ∀ (L : List CanvasOp) (w : World),
    (L.foldl applyOp w).log = w.log ++ L
| [], w => by simp
| op :: rest, w => by
  rw [List.foldl_cons, foldl_applyOp_log rest (applyOp w op), applyOp_log]
  simp

theorem emitOps_state (env : Env) : ∀ (L : List CanvasOp) (w : World),
    ((emitOps env L) w).2.isProcessing = w.isProcessing ∧
    ((emitOps env L) w).2.alerts = w.alerts ∧
    ((emitOps env L) w).2.fetchCount = w.fetchCount
| [], _ => ⟨rfl, rfl, rfl⟩
| op :: rest, w => by
  rw [show emitOps env (op :: rest) = M.bind (emitOp env op) fun _ => emitOps env rest
    from rfl]
  by_cases hf : env.canvasFailAt = some w.log.length
  · simp [M.bind, emitOp, hf]
  · have ih := emitOps_state env rest (applyOp w op)
    have ha := applyOp_fields w op
    simp only [M.bind, emitOp, if_neg hf]
    exact ⟨ih.1.trans ha.1, ih.2.1.trans ha.2.1, ih.2.2.trans ha.2.2⟩

theorem emitOps_none_ok (env : Env) (hcf : env.canvasFailAt = none) :
    ∀ (L : List CanvasOp) (w : World),
    (emitOps env L) w = (Except.ok (), L.foldl applyOp w)
| [], _ => rfl
| op :: rest, w => by
  have h1 : emitOp env op w = (Except.ok (), applyOp w op) := by
    simp [emitOp, hcf]
  show (M.bind (emitOp env op) fun _ => emitOps env rest) w = _
  simp only [M.bind, h1, List.foldl_cons]
  exact emitOps_none_ok env hcf rest (applyOp w op)

theorem emitOps_ok (env : Env) : ∀ (L : List CanvasOp) (w w' : World),
    (emitOps env L) w = (Except.ok (), w') → w' = L.foldl applyOp w
| [], w, w', h => by
  simp only [emitOps, M.pure, Prod.mk.injEq] at h
  rw [List.foldl_nil, ← h.2]
| op :: rest, w, w', h => by
  by_cases hf : env.canvasFailAt = some w.log.length
  · rw [show emitOps env (op :: rest) = M.bind (emitOp env op) fun _ => emitOps env rest
      from rfl] at h
    simp [M.bind, emitOp, hf] at h
  · rw [show emitOps env (op :: rest) = M.bind (emitOp env op) fun _ => emitOps env rest
      from rfl] at h
    simp only [M.bind, emitOp, if_neg hf] at h
    rw [List.foldl_cons]
    exact emitOps_ok env rest (applyOp w op) w' h

theorem emitOps_error_committed (env : Env) : ∀ (L : List CanvasOp) (w w' : World) (e : Err),
    (emitOps env L) w = (Except.error e, w') →
    (∀ op ∈ L.dropLast, op ≠ CanvasOp.invalidate) →
    w'.committed = w.committed
| [], w, w', e, h, _ => by
  simp [emitOps, M.pure] at h
| op :: rest, w, w', e, h, hL => by
  rw [show emitOps env (op :: rest) = M.bind (emitOp env op) fun _ => emitOps env rest
    from rfl] at h
  by_cases hf : env.canvasFailAt = some w.log.length
  · simp only [M.bind, emitOp, if_pos hf, Prod.mk.injEq] at h
    rw [← h.2]
  · simp only [M.bind, emitOp, if_neg hf] at h
    cases rest with
    | nil => simp [emitOps, M.pure] at h
    | cons r1 r2 =>
      have hop : op ≠ CanvasOp.invalidate := by
        apply hL
        simp [List.dropLast]
      have hrest : ∀ o ∈ (r1 :: r2).dropLast, o ≠ CanvasOp.invalidate := by
        intro o ho
        apply hL
        rw [List.dropLast_cons₂]
        exact List.mem_cons_of_mem op ho
      have := emitOps_error_committed env (r1 :: r2) (applyOp w op) w' e h hrest
      rw [this, applyOp_committed w hop]

theorem paintOps_mem {colors : List Nat} {height width : Nat} {op : CanvasOp}
    (h : op ∈ paintOps colors height width) :
    (∃ c, op = CanvasOp.setFillStyle c) ∨ ∃ x y, op = CanvasOp.fillRect x y 1 1 := by
  simp only [paintOps, List.mem_flatMap, List.mem_range] at h
  obtain ⟨i, _, j, _, hop⟩ := h
  simp only [pixelOps] at hop
  split at hop
  · rcases List.mem_cons.mp hop with h1 | h1
    · exact Or.inl ⟨_, h1⟩
    · rcases List.mem_cons.mp h1 with h2 | h2
      · exact Or.inr ⟨j, i, h2⟩
      · simp at h2
  · simp at hop

theorem paintOps_countP_zero {p : CanvasOp → Bool}
    (hp : ∀ c, p (CanvasOp.setFillStyle c) = false)
    (hq : ∀ x y u v, p (CanvasOp.fillRect x y u v) = false)
    (colors : List Nat) (height width : Nat) :
    (paintOps colors height width).countP p = 0 := by
  apply List.countP_eq_zero.mpr
  intro op hop
  rcases paintOps_mem hop with ⟨c, rfl⟩ | ⟨x, y, rfl⟩
  · simp [hp]
  · simp [hq]

theorem paintOps_no_invalidate {colors : List Nat} {height width : Nat} :
    ∀ op ∈ paintOps colors height width, op ≠ CanvasOp.invalidate := by
  intro op hop
  rcases paintOps_mem hop with ⟨c, rfl⟩ | ⟨x, y, rfl⟩ <;> simp

/-- Unfolding of a `handleImage` run whose model is loaded, exposing the
outcome of every awaited step. -/
theorem handleImage_eq (env : Env) (w : World) (fwd : Model)
    (hm : env.model = some fwd) :
    handleImage env w =
      (match (if env.hasCtx then emitOps env [CanvasOp.clear, CanvasOp.invalidate]
              else M.pure ()) { w with isProcessing := true } with
       | (Except.error e, w2) => (Except.error e, w2)
       | (Except.ok _, w2) =>
         (match env.fetchResult with
          | Except.error e => (Except.error e, { w2 with fetchCount := w2.fetchCount + 1 })
          | Except.ok image =>
            (match fwd (preprocess image) with
             | Except.error e => (Except.error e, { w2 with fetchCount := w2.fetchCount + 1 })
             | Except.ok output =>
               (match (if env.hasCtx then
                         emitOps env
                           ([CanvasOp.save,
                             CanvasOp.scale
                               (newScaleFactor env.windowWidth image.height image.width)
                               (newScaleFactor env.windowWidth image.height image.width),
                             CanvasOp.drawImage 0 0 image.width image.height]
                            ++ paintOps (decode output).data image.height image.width
                            ++ [CanvasOp.restore, CanvasOp.invalidate])
                       else M.pure ())
                        { w2 with fetchCount := w2.fetchCount + 1 } with
                | (Except.error e, w4) => (Except.error e, w4)
                | (Except.ok _, w4) =>
                  (Except.ok (), { w4 with isProcessing := false }))))) := by
  unfold handleImage
  simp only [hm]
  simp only [M.bind, M.setProcessing, M.fetchImage, M.liftE]
  rcases h1 : (if env.hasCtx then emitOps env [CanvasOp.clear, CanvasOp.invalidate]
      else M.pure ()) { w with isProcessing := true } with ⟨r1, w2⟩
  cases r1 with
  | error e => rfl
  | ok a =>
    cases hfr : env.fetchResult with
    | error e => rfl
    | ok image =>
      cases hfwd : fwd (preprocess image) with
      | error e => simp [hfwd]
      | ok output =>
        rcases h2 : (if env.hasCtx then
            emitOps env
              ([CanvasOp.save,
                CanvasOp.scale (newScaleFactor env.windowWidth image.height image.width)
                  (newScaleFactor env.windowWidth image.height image.width),
                CanvasOp.drawImage 0 0 image.width image.height]
               ++ paintOps (decode output).data image.height image.width
               ++ [CanvasOp.restore, CanvasOp.invalidate])
          else M.pure ()) { w2 with fetchCount := w2.fetchCount + 1 } with ⟨r2, w4⟩
        cases r2 with
        | error e => simp only [hfwd, h2]
        | ok a => simp only [hfwd, h2]

/-! Concrete environments and states used as witnesses. -/

/-- A quiescent initial state. -/
def w0 : World :=
  { isProcessing := false, alerts := [], fetchCount := 0, log := [], pending := [],
    committed := [] }

/-- A sample 1-by-1 image. -/
def img1 : ImageData := { height := 1, width := 1, blob := [255, 0, 51] }

/-- A `[1, 22, 1, 1]` model output whose scores grow with the class index,
peaking at class 21 - one class beyond the palette. -/
def out22 : Tensor :=
  { shape := [1, 22, 1, 1], data := (List.range 22).map (fun n => (Nat.cast n : ℚ)) }

/-- A run whose model is loaded, whose context is null, and whose external
steps all succeed. -/
def envRun : Env :=
  { model := some (fun _ => Except.ok out22), hasCtx := false,
    fetchResult := Except.ok img1, windowWidth := 250, canvasFailAt := none }

/-- The same run with the model still missing. -/
def env9 : Env :=
  { model := none, hasCtx := false, fetchResult := Except.ok img1, windowWidth := 250,
    canvasFailAt := none }

/-- A state with a run already in flight. -/
def wBusy : World := { w0 with isProcessing := true }

/-! Claim theorems about the orchestrator. -/

/-- C9: when the model is not loaded, `handleImage` rejects the request
with the "Model not loaded" alert and returns: no image fetch is issued,
no canvas call is made, `isProcessing` is never set, and the state is
otherwise unchanged (the orchestrator stays idle). -/
theorem handleImage_model_missing (env : Env) (w : World) (hm : env.model = none) :
    handleImage env w
      = (Except.ok (),
         { w with alerts :=
             w.alerts ++ [("Model not loaded", "The model has not been loaded yet")] }) := by
  unfold handleImage
  simp only [hm]
  rfl

/-- C9 witness: the model-missing run evaluated on the quiescent state. -/
theorem handleImage_model_missing_witness :
    env9.model = none ∧
    handleImage env9 w0
      = (Except.ok (),
         { w0 with alerts :=
             w0.alerts ++ [("Model not loaded", "The model has not been loaded yet")] }) :=
  ⟨rfl, handleImage_model_missing env9 w0 rfl⟩

/-- C8: the renderer computes the uniform scale factor as
`min(250 / height, windowWidth / width)`, which is the spec's
`min(targetBox.height / image.height, targetBox.width / image.width)` for
the target box `{width: windowWidth, height: 250}`; when that target box
equals the image's own dimensions the computed factor is exactly 1. -/
theorem scaleFactor_spec (windowWidth : ℚ) (height width : Nat)
    (_hh : 0 < height) (hw : 0 < width)
    (hH : (height : ℚ) = 250) (hW : (width : ℚ) = windowWidth) :
    newScaleFactor windowWidth height width
        = specScaleFactor windowWidth 250 (width : ℚ) (height : ℚ) ∧
    newScaleFactor windowWidth height width = 1 := by
  refine ⟨rfl, ?_⟩
  rw [newScaleFactor, hH, ← hW]
  have hw0 : (width : ℚ) ≠ 0 := Nat.cast_ne_zero.mpr hw.ne'
  rw [div_self hw0, div_self (by norm_num : (250 : ℚ) ≠ 0)]
  exact min_self 1

/-- C8 witness: a 250-by-250 image in a 250-by-250 target box. -/
theorem scaleFactor_spec_witness :
    ((0 : Nat) < 250 ∧ (0 : Nat) < 250 ∧ ((250 : Nat) : ℚ) = 250 ∧
      ((250 : Nat) : ℚ) = 250) ∧
    (newScaleFactor 250 250 250 = specScaleFactor 250 250 ((250 : Nat) : ℚ) ((250 : Nat) : ℚ) ∧
      newScaleFactor 250 250 250 = 1) :=
  ⟨⟨by decide, by decide, by norm_num, by norm_num⟩,
    scaleFactor_spec 250 250 250 (by decide) (by decide) (by norm_num) (by norm_num)⟩

/-- C10: when the canvas drawing context is null at run start and every
external step succeeds, `handleImage` still completes the whole run
without error: the image is fetched, preprocessed, inferred on and
decoded, not a single canvas call is made, and `isProcessing` is reset to
`false` at the end. -/
theorem handleImage_no_ctx (env : Env) (w : World) (fwd : Model) (image : ImageData)
    (outT : Tensor) (hm : env.model = some fwd) (hctx : env.hasCtx = false)
    (hfetch : env.fetchResult = Except.ok image)
    (hfwd : fwd (preprocess image) = Except.ok outT) :
    handleImage env w
      = (Except.ok (), { w with fetchCount := w.fetchCount + 1, isProcessing := false }) := by
  rw [handleImage_eq env w fwd hm, hctx]
  simp only [Bool.false_eq_true, if_false, M.pure, hfetch, hfwd]

/-- C10 witness: the null-context run evaluated on the quiescent state. -/
theorem handleImage_no_ctx_witness :
    envRun.hasCtx = false ∧
    handleImage envRun w0
      = (Except.ok (), { w0 with fetchCount := w0.fetchCount + 1, isProcessing := false }) :=
  ⟨rfl, handleImage_no_ctx envRun w0 _ img1 out22 rfl rfl rfl rfl⟩

/-- C4 counterexample: with a run already in flight (`isProcessing` is
true), a new `handleImage` request is not rejected: the image fetch is
issued and the run executes to completion. -/
theorem handleImage_inflight_not_rejected :
    wBusy.isProcessing = true ∧
    (handleImage envRun wBusy).1 = Except.ok () ∧
    (handleImage envRun wBusy).2.fetchCount = 1 :=
  ⟨rfl, rfl, rfl⟩

/-- C4 (amended): `handleImage` has no in-flight guard: with a loaded
model and a non-throwing canvas context, a run request proceeds to issue
the image fetch exactly once whatever the value of `isProcessing`; only a
missing model is rejected.  Nothing prevents a second concurrent run. -/
theorem handleImage_no_inflight_guard (env : Env) (w : World) (fwd : Model)
    (hm : env.model = some fwd) (hcf : env.canvasFailAt = none) :
    (handleImage env w).2.fetchCount = w.fetchCount + 1 := by
  rw [handleImage_eq env w fwd hm]
  have h2 : ∀ (L : List CanvasOp) (v : World), (L.foldl applyOp v).fetchCount = v.fetchCount :=
    fun L v => (foldl_applyOp_fields L v).2.2
  have ha : ∀ (v : World) (op : CanvasOp), (applyOp v op).fetchCount = v.fetchCount :=
    fun v op => (applyOp_fields v op).2.2
  cases hctx : env.hasCtx with
  | false =>
    simp only [Bool.false_eq_true, if_false, M.pure]
    cases hfr : env.fetchResult with
    | error e => rfl
    | ok image =>
      simp only []
      cases hfwd : fwd (preprocess image) with
      | error e => rfl
      | ok output => rfl
  | true =>
    simp only [if_true, emitOps_none_ok env hcf]
    cases hfr : env.fetchResult with
    | error e => simp [h2, ha]
    | ok image =>
      simp only []
      cases hfwd : fwd (preprocess image) with
      | error e => simp [h2, ha]
      | ok output => simp [h2, ha, emitOps_none_ok env hcf]

/-- C4 (amended) witness: the busy-state run evaluated concretely. -/
theorem handleImage_no_inflight_guard_witness :
    envRun.model = some (fun _ => Except.ok out22) ∧ envRun.canvasFailAt = none ∧
    (handleImage envRun wBusy).2.fetchCount = wBusy.fetchCount + 1 :=
  ⟨rfl, rfl, handleImage_no_inflight_guard envRun wBusy _ rfl rfl⟩

/-- The successful run again, but with the canvas context present. -/
def envPaint : Env :=
  { model := some (fun _ => Except.ok out22), hasCtx := true,
    fetchResult := Except.ok img1, windowWidth := 250, canvasFailAt := none }

/-- The context-present run whose fifth canvas call (the `drawImage`)
throws. -/
def envCanvasFail : Env :=
  { model := some (fun _ => Except.ok out22), hasCtx := true,
    fetchResult := Except.ok img1, windowWidth := 250, canvasFailAt := some 4 }

/-- C5 counterexample: when the `drawImage` call after `save` throws,
`handleImage` exits with the error having executed `save` but never
`restore` - the `restore` is not unconditional, and the transform leaks
on this exit path. -/
theorem handleImage_save_without_restore :
    (handleImage envCanvasFail w0).1 = Except.error Err.canvasFailed ∧
    (handleImage envCanvasFail w0).2.log.countP isSave = 1 ∧
    (handleImage envCanvasFail w0).2.log.countP isRestore = 0 :=
  ⟨rfl, rfl, rfl⟩

/-- C5 (amended): the `save`/`restore` pairing holds only on the success
path: a run of `handleImage` that completes without error executes
exactly one `save` and one `restore` (when a context is present, none
otherwise); a throwing drawing call instead exits without the `restore`. -/
theorem handleImage_save_restore (env : Env) (w w' : World) (fwd : Model)
    (hm : env.model = some fwd)
    (hrun : handleImage env w = (Except.ok (), w')) :
    w'.log.countP isSave = w.log.countP isSave + (if env.hasCtx then 1 else 0) ∧
    w'.log.countP isRestore
      = w.log.countP isRestore + (if env.hasCtx then 1 else 0) := by
  rw [handleImage_eq env w fwd hm] at hrun
  have hpzero : ∀ (p : CanvasOp → Bool), (∀ c, p (CanvasOp.setFillStyle c) = false) →
      (∀ x y u v, p (CanvasOp.fillRect x y u v) = false) →
      ∀ (colors : List Nat) (a b : Nat), (paintOps colors a b).countP p = 0 :=
    fun p hp hq colors a b => paintOps_countP_zero hp hq colors a b
  cases hctx : env.hasCtx with
  | false =>
    rw [hctx] at hrun
    simp only [Bool.false_eq_true, if_false, M.pure] at hrun
    cases hfr : env.fetchResult with
    | error e =>
      rw [hfr] at hrun
      simp at hrun
    | ok image =>
      rw [hfr] at hrun
      simp only [] at hrun
      cases hfwd : fwd (preprocess image) with
      | error e =>
        rw [hfwd] at hrun
        simp at hrun
      | ok output =>
        rw [hfwd] at hrun
        simp only [Prod.mk.injEq] at hrun
        rw [← hrun.2]
        simp
  | true =>
    rw [hctx] at hrun
    simp only [if_true] at hrun
    rcases h1 : emitOps env [CanvasOp.clear, CanvasOp.invalidate]
        { w with isProcessing := true } with ⟨r1, w2⟩
    rw [h1] at hrun
    cases r1 with
    | error e => simp at hrun
    | ok a =>
      simp only [] at hrun
      cases hfr : env.fetchResult with
      | error e =>
        rw [hfr] at hrun
        simp at hrun
      | ok image =>
        rw [hfr] at hrun
        simp only [] at hrun
        cases hfwd : fwd (preprocess image) with
        | error e =>
          rw [hfwd] at hrun
          simp at hrun
        | ok output =>
          rw [hfwd] at hrun
          simp only [] at hrun
          rcases h2 : emitOps env
              ([CanvasOp.save,
                CanvasOp.scale (newScaleFactor env.windowWidth image.height image.width)
                  (newScaleFactor env.windowWidth image.height image.width),
                CanvasOp.drawImage 0 0 image.width image.height]
               ++ paintOps (decode output).data image.height image.width
               ++ [CanvasOp.restore, CanvasOp.invalidate])
              { w2 with fetchCount := w2.fetchCount + 1 } with ⟨r2, w4⟩
          rw [h2] at hrun
          cases r2 with
          | error e => simp at hrun
          | ok b =>
            simp only [Prod.mk.injEq] at hrun
            have hw2 := emitOps_ok env _ _ _ h1
            have hw4 := emitOps_ok env _ _ _ h2
            rw [← hrun.2]
            show ({ w4 with isProcessing := false }).log.countP isSave = _ ∧
              ({ w4 with isProcessing := false }).log.countP isRestore = _
            have hlog4 : w4.log = w2.log ++
                ([CanvasOp.save,
                  CanvasOp.scale (newScaleFactor env.windowWidth image.height image.width)
                    (newScaleFactor env.windowWidth image.height image.width),
                  CanvasOp.drawImage 0 0 image.width image.height]
                 ++ paintOps (decode output).data image.height image.width
                 ++ [CanvasOp.restore, CanvasOp.invalidate]) := by
              rw [hw4, foldl_applyOp_log]
            have hlog2 : w2.log = w.log ++ [CanvasOp.clear, CanvasOp.invalidate] := by
              rw [hw2, foldl_applyOp_log]
            constructor
            · show w4.log.countP isSave = _
              rw [hlog4, hlog2]
              simp [List.countP_append, List.countP_cons, isSave,
                hpzero isSave (fun _ => rfl) (fun _ _ _ _ => rfl)]
            · show w4.log.countP isRestore = _
              rw [hlog4, hlog2]
              simp [List.countP_append, List.countP_cons, isRestore,
                hpzero isRestore (fun _ => rfl) (fun _ _ _ _ => rfl)]

set_option maxRecDepth 8000 in
/-- C5 (amended) witness: the successful context-present run evaluated
concretely. -/
theorem handleImage_save_restore_witness :
    envPaint.model = some (fun _ => Except.ok out22) ∧
    handleImage envPaint w0 = (Except.ok (), (handleImage envPaint w0).2) ∧
    ((handleImage envPaint w0).2.log.countP isSave
        = w0.log.countP isSave + (if envPaint.hasCtx then 1 else 0) ∧
      (handleImage envPaint w0).2.log.countP isRestore
        = w0.log.countP isRestore + (if envPaint.hasCtx then 1 else 0)) :=
  ⟨rfl, rfl, handleImage_save_restore envPaint w0 ((handleImage envPaint w0).2) _ rfl rfl⟩

/-- The null-context run whose image fetch fails. -/
def envFetchFail : Env :=
  { model := some (fun _ => Except.ok out22), hasCtx := false,
    fetchResult := Except.error Err.fetchFailed, windowWidth := 250,
    canvasFailAt := none }

/-- C3 counterexample: a failing image fetch propagates its error to the
caller, but `isProcessing` is left `true`: the run does not return the
orchestrator to the idle state, contradicting the claim that the flag is
reset to `false` on failure. -/
theorem handleImage_error_leaves_processing :
    (handleImage envFetchFail w0).1 = Except.error Err.fetchFailed ∧
    (handleImage envFetchFail w0).2.isProcessing = true :=
  ⟨rfl, rfl⟩

/-- C3 (amended): when any step of a run fails, `handleImage` propagates
the error to its caller and never commits a mask pixel to the screen (the
final `invalidate` is never reached, so no new `fillRect` joins the
committed calls), but the orchestrator does not return to idle: there is
no exception handler in the function, `setIsProcessing(false)` is
skipped, and `isProcessing` stays `true`. -/
theorem handleImage_error_state (env : Env) (w w' : World) (e : Err)
    (hpend : w.pending = [])
    (hrun : handleImage env w = (Except.error e, w')) :
    w'.isProcessing = true ∧
    w'.committed.countP isFillRect = w.committed.countP isFillRect := by
  cases hm : env.model with
  | none =>
    unfold handleImage at hrun
    rw [hm] at hrun
    simp [M.alert] at hrun
  | some fwd =>
    rw [handleImage_eq env w fwd hm] at hrun
    cases hctx : env.hasCtx with
    | false =>
      rw [hctx] at hrun
      simp only [Bool.false_eq_true, if_false, M.pure] at hrun
      cases hfr : env.fetchResult with
      | error e1 =>
        rw [hfr] at hrun
        simp only [Prod.mk.injEq] at hrun
        rw [← hrun.2]
        exact ⟨rfl, rfl⟩
      | ok image =>
        rw [hfr] at hrun
        simp only [] at hrun
        cases hfwd : fwd (preprocess image) with
        | error e1 =>
          rw [hfwd] at hrun
          simp only [Prod.mk.injEq] at hrun
          rw [← hrun.2]
          exact ⟨rfl, rfl⟩
        | ok output =>
          rw [hfwd] at hrun
          simp at hrun
    | true =>
      rw [hctx] at hrun
      simp only [if_true] at hrun
      rcases h1 : emitOps env [CanvasOp.clear, CanvasOp.invalidate]
          { w with isProcessing := true } with ⟨r1, w2⟩
      rw [h1] at hrun
      cases r1 with
      | error e1 =>
        simp only [Prod.mk.injEq] at hrun
        rw [← hrun.2]
        have hs := emitOps_state env [CanvasOp.clear, CanvasOp.invalidate]
          { w with isProcessing := true }
        rw [h1] at hs
        have hcom := emitOps_error_committed env [CanvasOp.clear, CanvasOp.invalidate]
          { w with isProcessing := true } w2 e1 h1 (by intro op hop; simp at hop; simp [hop])
        exact ⟨hs.1, by rw [hcom]⟩
      | ok a =>
        have hw2 := emitOps_ok env _ _ _ h1
        have hw2c : w2.committed = w.committed ++ [CanvasOp.clear] := by
          rw [hw2]
          simp [applyOp, hpend]
        have hw2p : w2.isProcessing = true := by
          rw [hw2]
          exact (foldl_applyOp_fields _ _).1
        have hcount : (w.committed ++ [CanvasOp.clear]).countP isFillRect
            = w.committed.countP isFillRect := by
          simp [List.countP_append, isFillRect]
        simp only [] at hrun
        cases hfr : env.fetchResult with
        | error e1 =>
          rw [hfr] at hrun
          simp only [Prod.mk.injEq] at hrun
          rw [← hrun.2]
          refine ⟨hw2p, ?_⟩
          show List.countP isFillRect w2.committed = List.countP isFillRect w.committed
          rw [hw2c]
          exact hcount
        | ok image =>
          rw [hfr] at hrun
          simp only [] at hrun
          cases hfwd : fwd (preprocess image) with
          | error e1 =>
            rw [hfwd] at hrun
            simp only [Prod.mk.injEq] at hrun
            rw [← hrun.2]
            refine ⟨hw2p, ?_⟩
            show List.countP isFillRect w2.committed = List.countP isFillRect w.committed
            rw [hw2c]
            exact hcount
          | ok output =>
            rw [hfwd] at hrun
            simp only [] at hrun
            rcases h2 : emitOps env
                ([CanvasOp.save,
                  CanvasOp.scale (newScaleFactor env.windowWidth image.height image.width)
                    (newScaleFactor env.windowWidth image.height image.width),
                  CanvasOp.drawImage 0 0 image.width image.height]
                 ++ paintOps (decode output).data image.height image.width
                 ++ [CanvasOp.restore, CanvasOp.invalidate])
                { w2 with fetchCount := w2.fetchCount + 1 } with ⟨r2, w4⟩
            rw [h2] at hrun
            cases r2 with
            | error e2 =>
              simp only [Prod.mk.injEq] at hrun
              rw [← hrun.2]
              have hs := emitOps_state env
                ([CanvasOp.save,
                  CanvasOp.scale (newScaleFactor env.windowWidth image.height image.width)
                    (newScaleFactor env.windowWidth image.height image.width),
                  CanvasOp.drawImage 0 0 image.width image.height]
                 ++ paintOps (decode output).data image.height image.width
                 ++ [CanvasOp.restore, CanvasOp.invalidate])
                { w2 with fetchCount := w2.fetchCount + 1 }
              rw [h2] at hs
              have hdrop : ∀ op ∈ ([CanvasOp.save,
                  CanvasOp.scale (newScaleFactor env.windowWidth image.height image.width)
                    (newScaleFactor env.windowWidth image.height image.width),
                  CanvasOp.drawImage 0 0 image.width image.height]
                 ++ paintOps (decode output).data image.height image.width
                 ++ [CanvasOp.restore, CanvasOp.invalidate]).dropLast,
                  op ≠ CanvasOp.invalidate := by
                intro op hop
                rw [show ([CanvasOp.save,
                    CanvasOp.scale (newScaleFactor env.windowWidth image.height image.width)
                      (newScaleFactor env.windowWidth image.height image.width),
                    CanvasOp.drawImage 0 0 image.width image.height]
                   ++ paintOps (decode output).data image.height image.width
                   ++ [CanvasOp.restore, CanvasOp.invalidate])
                  = (([CanvasOp.save,
                      CanvasOp.scale (newScaleFactor env.windowWidth image.height image.width)
                        (newScaleFactor env.windowWidth image.height image.width),
                      CanvasOp.drawImage 0 0 image.width image.height]
                     ++ paintOps (decode output).data image.height image.width
                     ++ [CanvasOp.restore]) ++ [CanvasOp.invalidate]) by simp,
                  List.dropLast_concat] at hop
                simp only [List.mem_append] at hop
                rcases hop with (hop | hop) | hop
                · rcases List.mem_cons.mp hop with h | h
                  · simp [h]
                  · rcases List.mem_cons.mp h with h | h
                    · simp [h]
                    · rcases List.mem_cons.mp h with h | h
                      · simp [h]
                      · simp at h
                · exact paintOps_no_invalidate op hop
                · rcases List.mem_cons.mp hop with h | h
                  · simp [h]
                  · simp at h
              have hcom := emitOps_error_committed env _ _ _ e2 h2 hdrop
              refine ⟨hs.1.trans hw2p, ?_⟩
              rw [hcom]
              show List.countP isFillRect w2.committed = List.countP isFillRect w.committed
              rw [hw2c]
              exact hcount
            | ok b =>
              simp at hrun

/-- C3 (amended) witness: the failing-fetch run evaluated concretely. -/
theorem handleImage_error_state_witness :
    w0.pending = [] ∧
    handleImage envFetchFail w0
      = (Except.error Err.fetchFailed, (handleImage envFetchFail w0).2) ∧
    ((handleImage envFetchFail w0).2.isProcessing = true ∧
      (handleImage envFetchFail w0).2.committed.countP isFillRect
        = w0.committed.countP isFillRect) :=
  ⟨rfl, rfl,
    handleImage_error_state envFetchFail w0 ((handleImage envFetchFail w0).2)
      Err.fetchFailed rfl rfl⟩

set_option maxRecDepth 8000 in
/-- C6 counterexample: a full run whose decoded mask holds class 21 at
its only pixel - one beyond the 21-entry palette - completes without any
error and silently records a fill-style assignment of the undefined
out-of-bounds palette read, instead of aborting the render. -/
theorem handleImage_out_of_palette_not_aborted :
    (handleImage envPaint w0).1 = Except.ok () ∧
    CanvasOp.setFillStyle none ∈ (handleImage envPaint w0).2.log :=
  ⟨rfl, by decide⟩

/-- C6 (amended): an out-of-palette mask value does not abort the render:
the loop guard only tests `idx > 0`, so for a pixel whose class index is
at least `PALETTE.length` the renderer sets the fill style to the
undefined result of the out-of-bounds palette read (`PALETTE.get?` yields
`none`) and still paints the unit rectangle at `(j, i)`; no error of any
kind is raised and no wrapping occurs. -/
theorem paintOps_out_of_palette (colors : List Nat) (height width i j : Nat)
    (hi : i < height) (hj : j < width)
    (hidx : PALETTE.length ≤ colors.getD (i * width + j) 0) :
    PALETTE.get? (colors.getD (i * width + j) 0) = none ∧
    CanvasOp.setFillStyle none ∈ paintOps colors height width ∧
    CanvasOp.fillRect j i 1 1 ∈ paintOps colors height width := by
  have hget : PALETTE.get? (colors.getD (i * width + j) 0) = none :=
    List.get?_eq_none.mpr hidx
  have hpos : 0 < colors.getD (i * width + j) 0 :=
    Nat.lt_of_lt_of_le (by norm_num [PALETTE]) hidx
  refine ⟨hget, ?_, ?_⟩ <;>
  · simp only [paintOps, List.mem_flatMap, List.mem_range]
    refine ⟨i, hi, j, hj, ?_⟩
    simp only [pixelOps]
    rw [if_pos hpos, hget]
    simp

/-- C6 (amended) witness: a one-pixel mask with class index 21. -/
theorem paintOps_out_of_palette_witness :
    ((0 : Nat) < 1 ∧ (0 : Nat) < 1 ∧ PALETTE.length ≤ [21].getD (0 * 1 + 0) 0) ∧
    (PALETTE.get? ([21].getD (0 * 1 + 0) 0) = none ∧
      CanvasOp.setFillStyle none ∈ paintOps [21] 1 1 ∧
      CanvasOp.fillRect 0 0 1 1 ∈ paintOps [21] 1 1) :=
  ⟨⟨by decide, by decide, by decide⟩,
    paintOps_out_of_palette [21] 1 1 0 0 (by decide) (by decide) (by decide)⟩

theorem sum_range_zero (n : Nat) (f : Nat → Nat) (h0 : ∀ k, k < n → f k = 0) :
    ((List.range n).map f).sum = 0 := by
  apply List.sum_eq_zero
  intro x hx
  obtain ⟨k, hk, rfl⟩ := List.mem_map.mp hx
  exact h0 k (List.mem_range.mp hk)

theorem sum_range_single (n i : Nat) (f : Nat → Nat) (hi : i < n)
    (h0 : ∀ k, k < n → k ≠ i → f k = 0) : ((List.range n).map f).sum = f i := by
  induction n with
  | zero => omega
  | succ n ih =>
    rw [List.range_succ, List.map_append, List.sum_append]
    by_cases hin : i = n
    · subst hin
      rw [sum_range_zero i f (fun k hk => h0 k (by omega) (by omega))]
      simp
    · rw [ih (by omega) (fun k hk hki => h0 k (by omega) hki)]
      have hn : f n = 0 := h0 n (by omega) (by omega)
      simp [hn]

theorem pixelOps_countP_fillRectAt (colors : List Nat) (width i j i1 j1 : Nat) :
    (pixelOps colors width i1 j1).countP (isFillRectAt j i)
      = if j1 = j ∧ i1 = i ∧ 0 < colors.getD (i1 * width + j1) 0 then 1 else 0 := by
  by_cases hpos : 0 < colors.getD (i1 * width + j1) 0
  · by_cases hj1 : j1 = j
    · by_cases hi1 : i1 = i
      · rw [if_pos ⟨hj1, hi1, hpos⟩]
        subst hj1
        subst hi1
        simp only [pixelOps]
        rw [if_pos hpos, List.countP_cons, List.countP_cons, List.countP_nil]
        simp [isFillRectAt]
      · rw [if_neg (fun hcon => hi1 hcon.2.1)]
        simp only [pixelOps]
        rw [if_pos hpos, List.countP_cons, List.countP_cons, List.countP_nil]
        simp [isFillRectAt, hj1, hi1]
    · rw [if_neg (fun hcon => hj1 hcon.1)]
      simp only [pixelOps]
      rw [if_pos hpos, List.countP_cons, List.countP_cons, List.countP_nil]
      simp [isFillRectAt, hj1]
  · rw [if_neg (fun hcon => hpos hcon.2.2)]
    simp only [pixelOps]
    rw [if_neg hpos, List.countP_nil]

/-- C7: the render loop paints exactly one unit rectangle at drawing
coordinate `(j, i)` for every pixel `(i, j)` whose mask value is nonzero,
with the fill style set from `PALETTE` at that value, and paints nothing
at a pixel whose mask value is zero; consequently an all-zero mask emits
no paint call at all, leaving only the drawn image on the surface. -/
theorem paintOps_pixel_spec (colors : List Nat) (height width i j : Nat)
    (hi : i < height) (hj : j < width) :
    (colors.getD (i * width + j) 0 ≠ 0 →
      (paintOps colors height width).countP (isFillRectAt j i) = 1 ∧
      CanvasOp.setFillStyle (PALETTE.get? (colors.getD (i * width + j) 0))
        ∈ paintOps colors height width) ∧
    (colors.getD (i * width + j) 0 = 0 →
      (paintOps colors height width).countP (isFillRectAt j i) = 0) ∧
    ((∀ k, colors.getD k 0 = 0) → paintOps colors height width = []) := by
  have hcount : (paintOps colors height width).countP (isFillRectAt j i)
      = ((List.range height).map (fun i1 =>
          ((List.range width).map (fun j1 =>
            (pixelOps colors width i1 j1).countP (isFillRectAt j i))).sum)).sum := by
    rw [paintOps, List.countP_flatMap]
    congr 1
    apply List.map_congr_left
    intro i1 _
    simp only [Function.comp_apply]
    rw [List.countP_flatMap]
    rfl
  refine ⟨?_, ?_, ?_⟩
  · intro hne
    constructor
    · rw [hcount]
      rw [sum_range_single height i _ hi ?hz]
      case hz =>
        intro k hk hki
        apply sum_range_zero
        intro j1 hj1
        rw [pixelOps_countP_fillRectAt, if_neg (fun hcon => hki hcon.2.1)]
      rw [sum_range_single width j _ hj ?hz2]
      case hz2 =>
        intro k hk hkj
        rw [pixelOps_countP_fillRectAt, if_neg (fun hcon => hkj hcon.1)]
      rw [pixelOps_countP_fillRectAt, if_pos ⟨rfl, rfl, Nat.pos_of_ne_zero hne⟩]
    · simp only [paintOps, List.mem_flatMap, List.mem_range]
      refine ⟨i, hi, j, hj, ?_⟩
      simp only [pixelOps]
      rw [if_pos (Nat.pos_of_ne_zero hne)]
      simp
  · intro hzero
    rw [hcount]
    apply sum_range_zero
    intro i1 _
    apply sum_range_zero
    intro j1 _
    rw [pixelOps_countP_fillRectAt]
    by_cases hj1 : j1 = j
    · by_cases hi1 : i1 = i
      · subst hj1
        subst hi1
        rw [if_neg (fun hcon => absurd hcon.2.2 (by rw [hzero]; exact lt_irrefl 0))]
      · rw [if_neg (fun hcon => hi1 hcon.2.1)]
    · rw [if_neg (fun hcon => hj1 hcon.1)]
  · intro hzero
    rw [paintOps]
    apply List.flatMap_eq_nil_iff.mpr
    intro i1 _
    apply List.flatMap_eq_nil_iff.mpr
    intro j1 _
    simp only [pixelOps]
    rw [if_neg (by rw [hzero (i1 * width + j1)]; exact lt_irrefl 0)]

/-- C7 witness: a 1-by-2 mask with class 5 at pixel `(0, 0)`. -/
theorem paintOps_pixel_spec_witness :
    ((0 : Nat) < 1 ∧ (0 : Nat) < 2) ∧
    (([5, 0].getD (0 * 2 + 0) 0 ≠ 0 →
        (paintOps [5, 0] 1 2).countP (isFillRectAt 0 0) = 1 ∧
        CanvasOp.setFillStyle (PALETTE.get? ([5, 0].getD (0 * 2 + 0) 0))
          ∈ paintOps [5, 0] 1 2) ∧
      ([5, 0].getD (0 * 2 + 0) 0 = 0 →
        (paintOps [5, 0] 1 2).countP (isFillRectAt 0 0) = 0) ∧
      ((∀ k, [5, 0].getD k 0 = 0) → paintOps [5, 0] 1 2 = [])) :=
  ⟨⟨by decide, by decide⟩, paintOps_pixel_spec [5, 0] 1 2 0 0 (by decide) (by decide)⟩

end DeepLab
